import Mathlib

/-!
Shallow embedding of `src/IHCBridge.py` (class `IHCBridge`).

The bridge's mutable state is modelled explicitly:
* `self.pending_confirmations` is a Python dict keyed by the string
  `f"{module}_{output}"`; it is embedded as an association list
  (`Pending`), with the dict's key-uniqueness stated as a `Nodup`
  hypothesis where a theorem needs it.
* `self.confirmation_failures` is a Python list of timestamps,
  embedded as `List Time`.
* Timestamps (`time.time()`) are embedded as integers.
* Network effects (HTTP POST results, MQTT publishes, subprocess
  invocations) are embedded by passing the collaborator's outcome in as
  a parameter and collecting the outbound messages in the result.
-/

namespace IHCBridge

/-- Timestamps as returned by `time.time()`, embedded as integers. -/
abbrev Time := Int

/-- `self.confirmation_timeout = 10` (seconds). -/
def confirmation_timeout : Int := 10

/-- `self.failure_threshold = 3` (failures before restart). -/
def failure_threshold : Nat := 3

/-- `self.failure_window = 300` (seconds, 5 minutes). -/
def failure_window : Int := 300

/-- One value of the `pending_confirmations` dict:
`{"state": state, "timestamp": time.time(), "module": module, "output": output}`. -/
structure PendingInfo where
  state : Bool
  timestamp : Time
  module : Int
  output : Int
deriving Repr, DecidableEq

/-- `self.pending_confirmations`: a Python dict from string keys to entries,
embedded as an association list. A Python dict has at most one entry per
key; theorems that depend on that carry it as a `Nodup` hypothesis on the
key list. -/
abbrev Pending := List (String × PendingInfo)

/-- One `self.mqtt_client.publish(topic, payload, retain=...)` call. -/
structure PublishedMsg where
  topic : String
  payload : String
  retain : Bool
deriving Repr, DecidableEq

/-- The dict key `f"{module}_{output}"` (also `f"{module_number}_{io_number}"`). -/
def mkKey (module output : Int) : String :=
  toString module ++ "_" ++ toString output

/-- Python `d[key]` lookup on the embedded dict: the entry whose key matches. -/
def lookupPending (p : Pending) (k : String) : Option PendingInfo :=
  (p.find? (fun kv => kv.1 == k)).map Prod.snd

/-- Python `del d[key]` on the embedded dict: drop the entry for `key`
(a dict holds at most one entry per key, so dropping every match is the
same operation under the dict invariant). -/
def delKey (p : Pending) (k : String) : Pending :=
  p.filter (fun kv => kv.1 != k)

/-- Python `d[key] = value` on the embedded dict: replace the entry in place
when the key is present (a dict assignment keeps the key's position),
otherwise append it. -/
def dictInsert (p : Pending) (k : String) (v : PendingInfo) : Pending :=
  if p.any (fun kv => kv.1 == k) then
    p.map (fun kv => if kv.1 == k then (k, v) else kv)
  else
    p ++ [(k, v)]

end IHCBridge

namespace IHCBridge

/-! ### `check_pending_confirmations` (lines 229-268)

The periodic sweep: for each pending entry whose age exceeds
`confirmation_timeout`, append `current_time` to `confirmation_failures`,
prune failures older than `failure_window`, flag a restart once the list
reaches `failure_threshold`, and collect the key for removal. After the
loop the collected keys are deleted; if the restart flag is set the
failure list is cleared and `restart_ihc_server()` is invoked. -/

/-- `current_time - info["timestamp"] > self.confirmation_timeout`. -/
def isExpired (now : Time) (kv : String × PendingInfo) : Bool :=
  decide (confirmation_timeout < now - kv.2.timestamp)

/-- `[t for t in self.confirmation_failures if current_time - t < self.failure_window]`. -/
def pruneFailures (now : Time) (fs : List Time) : List Time :=
  fs.filter (fun t => decide (now - t < failure_window))

/-- Loop-carried state of the `for key, info in self.pending_confirmations.items()`
loop in `check_pending_confirmations`. -/
structure SweepAcc where
  failures : List Time
  keysToRemove : List String
  restartNeeded : Bool
deriving Repr, DecidableEq

/-- One iteration of the sweep loop body. -/
def checkPendingStep (now : Time) (acc : SweepAcc) (kv : String × PendingInfo) : SweepAcc :=
  if isExpired now kv then
    let fs := pruneFailures now (acc.failures ++ [now])
    { failures := fs
      keysToRemove := acc.keysToRemove ++ [kv.1]
      restartNeeded := acc.restartNeeded || decide (failure_threshold ≤ fs.length) }
  else acc

/-- Result of one `check_pending_confirmations` call. `restartTriggered`
records that `restart_ihc_server()` was invoked. -/
structure SweepResult where
  pending : Pending
  failures : List Time
  expiredKeys : List String
  restartTriggered : Bool
deriving Repr, DecidableEq

/-- `check_pending_confirmations` (lines 229-268). -/
def check_pending_confirmations (pending : Pending) (failures : List Time)
    (now : Time) : SweepResult :=
  let acc := pending.foldl (checkPendingStep now) ⟨failures, [], false⟩
  let pending' := acc.keysToRemove.foldl delKey pending
  { pending := pending'
    failures := if acc.restartNeeded then [] else acc.failures
    expiredKeys := acc.keysToRemove
    restartTriggered := acc.restartNeeded }

end IHCBridge

namespace IHCBridge

/-! ### `process_ihc_event` (lines 382-417)

The Event Relay: decoded WebSocket events carry `type`, `moduleNumber`,
`ioNumber`, `state`; `event.get(...)` yields `None` for an absent field,
embedded as `Option`. The body is wrapped in `try/except`, so the
embedding is a total function. -/

/-- A decoded inbound event; `event.get(field)` results (absent = `none`). -/
structure IhcEvent where
  type_ : Option String
  moduleNumber : Option Int
  ioNumber : Option Int
  state : Option Bool
deriving Repr, DecidableEq

/-- Result of one `process_ihc_event` call. `confirmed` records that a
pending confirmation was deleted (the `del self.pending_confirmations[key]`
branch). -/
structure EventResult where
  pending : Pending
  published : List PublishedMsg
  confirmed : Bool
deriving Repr, DecidableEq

/-- `process_ihc_event` (lines 382-417). -/
def process_ihc_event (p : Pending) (event : IhcEvent) : EventResult :=
  match event.type_, event.moduleNumber, event.ioNumber, event.state with
  | some event_type, some module_number, some io_number, some state =>
    if event_type = "ping" then
      { pending := p, published := [], confirmed := false }
    else
      let mqtt_state := if state then "ON" else "OFF"
      let topic := "ihc/" ++ event_type ++ "/" ++ toString module_number ++ "/"
        ++ toString io_number ++ "/state"
      let published := [⟨topic, mqtt_state, true⟩]
      if event_type = "outputState" then
        let key := mkKey module_number io_number
        match lookupPending p key with
        | some info =>
          if info.state = state then
            { pending := delKey p key, published := published, confirmed := true }
          else
            { pending := p, published := published, confirmed := false }
        | none => { pending := p, published := published, confirmed := false }
      else
        { pending := p, published := published, confirmed := false }
  | _, _, _, _ => { pending := p, published := [], confirmed := false }

/-! ### `set_ihc_output` (lines 180-227) and `on_message` (lines 131-178)

The HTTP POST to the IHC server is an external collaborator; its outcome
is passed in: `none` models a raised `requests.exceptions.RequestException`,
`some code` models a response with that status code. -/

/-- The body of the POST sent to `/ihcrequest`:
`{"type": "setOutput", "moduleNumber": m, "ioNumber": o, "state": s}`. -/
structure SetOutputRequest where
  moduleNumber : Int
  ioNumber : Int
  state : Bool
deriving Repr, DecidableEq

/-- Result of one `set_ihc_output` call. `submitted` lists the requests
POSTed to the IHC server; `warnLogged`/`errorLogged` record the
`logger.warning`/`logger.error` calls. -/
structure SetOutputResult where
  pending : Pending
  published : List PublishedMsg
  submitted : List SetOutputRequest
  warnLogged : Bool
  errorLogged : Bool
deriving Repr, DecidableEq

/-- `set_ihc_output` (lines 180-227). `outcome` is the collaborator's
response (`none` = `RequestException` raised by the POST). -/
def set_ihc_output (p : Pending) (module output : Int) (state : Bool)
    (now : Time) (outcome : Option Nat) : SetOutputResult :=
  match outcome with
  | none =>
    { pending := p, published := [], submitted := [⟨module, output, state⟩]
      warnLogged := false, errorLogged := true }
  | some code =>
    if code = 200 then
      let key := mkKey module output
      { pending := dictInsert p key ⟨state, now, module, output⟩
        published := [⟨"ihc/output/" ++ toString module ++ "/" ++ toString output
          ++ "/state", if state then "ON" else "OFF", true⟩]
        submitted := [⟨module, output, state⟩]
        warnLogged := false, errorLogged := false }
    else
      { pending := p, published := [], submitted := [⟨module, output, state⟩]
        warnLogged := true, errorLogged := false }

/-- Privileged system actions reachable from `on_message`. -/
inductive SysAction where
  | restartIhcServer
  | restartPi
deriving Repr, DecidableEq

/-- Result of one `on_message` call. The Python body is wrapped in
`try/except Exception`, so the embedding is total; `errorLogged` records
the `except` branch (e.g. `int()` raising `ValueError`). -/
structure OnMessageResult where
  pending : Pending
  published : List PublishedMsg
  submitted : List SetOutputRequest
  sysAction : Option SysAction
  warnLogged : Bool
  errorLogged : Bool
deriving Repr, DecidableEq

/-- Splitting a character list at a separator character; every Python
`str.split(sep)` result list is nonempty and keeps empty segments. -/
def splitOnChar (sep : Char) : List Char → List (List Char)
  | [] => [[]]
  | c :: cs =>
    let r := splitOnChar sep cs
    if c = sep then [] :: r
    else
      match r with
      | [] => [[c]]
      | h :: t => (c :: h) :: t

/-- Python `topic.split("/")` (line 157). -/
def pySplit (s : String) : List String :=
  (splitOnChar '/' s.data).map String.mk

/-- Python `s.upper()`, on the ASCII payloads the bridge compares against. -/
def pyUpper (s : String) : String :=
  String.mk (s.data.map Char.toUpper)

/-- The (negated) topic-format check of lines 158-163: the topic must split
into exactly five segments with `ihc`, `output` and `set` at the fixed
positions. -/
def valid_set_topic (topic_parts : List String) : Bool :=
  topic_parts.length == 5 && topic_parts.getD 0 "" == "ihc"
    && topic_parts.getD 1 "" == "output" && topic_parts.getD 4 "" == "set"

/-- Decimal value of a digit list, most significant first. -/
def natOfDigits (cs : List Char) : Nat :=
  cs.foldl (fun n c => n * 10 + (c.toNat - 48)) 0

/-- Python `int(s)`, as used on the topic segments: an optional sign
followed by at least one decimal digit (surrounding whitespace and digit
separators are not modelled); a parse failure raises `ValueError`, caught
by the surrounding `except`. -/
def pyInt (s : String) : Option Int :=
  match s.data with
  | [] => none
  | '-' :: rest =>
    if rest ≠ [] ∧ rest.all Char.isDigit then some (-(natOfDigits rest : Int)) else none
  | '+' :: rest =>
    if rest ≠ [] ∧ rest.all Char.isDigit then some (natOfDigits rest) else none
  | cs => if cs.all Char.isDigit then some (natOfDigits cs) else none

/-- `on_message` (lines 131-178). In the Python source the two system-topic
branches fall through to the output-command parsing when the payload is not
`RESTART` (the `return` sits inside the inner `if`), which the nested `if`
structure below reproduces. -/
def on_message (p : Pending) (topic payload : String) (now : Time)
    (outcome : Option Nat) : OnMessageResult :=
  if topic = "ihc/system/restart" ∧ pyUpper payload = "RESTART" then
    { pending := p
      published := [⟨"ihc/system/status", "Restarting IHC server", false⟩]
      submitted := [], sysAction := some .restartIhcServer
      warnLogged := false, errorLogged := false }
  else if topic = "ihc/system/pi_restart" ∧ pyUpper payload = "RESTART" then
    { pending := p, published := [], submitted := []
      sysAction := some .restartPi, warnLogged := false, errorLogged := false }
  else
    let topic_parts := pySplit topic
    if valid_set_topic topic_parts then
      let module := topic_parts.getD 2 ""
      let output := topic_parts.getD 3 ""
      let state := pyUpper payload == "ON"
      match pyInt module, pyInt output with
      | some m, some o =>
        let r := set_ihc_output p m o state now outcome
        { pending := r.pending, published := r.published, submitted := r.submitted
          sysAction := none, warnLogged := r.warnLogged, errorLogged := r.errorLogged }
      | _, _ =>
        { pending := p, published := [], submitted := [], sysAction := none
          warnLogged := false, errorLogged := true }
    else
      { pending := p, published := [], submitted := [], sysAction := none
        warnLogged := true, errorLogged := false }

end IHCBridge

namespace IHCBridge

/-! ### `restart_raspberry_pi` (lines 474-509)

`subprocess.run(["sudo", "reboot"], check=False)`: with `check=False` a
nonzero exit status does not raise `CalledProcessError`; only a spawn-level
`OSError` (or similar) raises. The `except Exception` branch re-enables
`self.running` and calls `reset_connections()`. -/

/-- What the privileged invocation does: the command runs and exits with
the given status, or the invocation itself raises (e.g. `OSError`). -/
inductive InvokeOutcome where
  | exitCode (c : Nat)
  | raisesOSError
deriving Repr, DecidableEq

/-- `subprocess.run(cmd, check=check)`: raises `CalledProcessError` only
when `check` is true and the exit status is nonzero; a spawn failure
always raises. -/
def subprocess_run (check : Bool) (o : InvokeOutcome) : Except String Unit :=
  match o with
  | .raisesOSError => .error "OSError"
  | .exitCode c => if check ∧ c ≠ 0 then .error "CalledProcessError" else .ok ()

/-- The fragment of the bridge's state that `restart_raspberry_pi` touches. -/
structure PiRestartState where
  running : Bool
  resetConnectionsCalled : Bool
  statusPublished : Bool
deriving Repr, DecidableEq

/-- `restart_raspberry_pi` (lines 474-509): publish a status notice, set
`self.running = False`, tear down both connections, then invoke
`subprocess.run(["sudo", "reboot"], check=False)`. The publish, sleeps and
teardown calls in the `try` block do not raise; the only modelled failure
source is the subprocess invocation, whose exception lands in the
`except` branch (re-enable `running`, call `reset_connections()`). -/
def restart_raspberry_pi (s : PiRestartState) (o : InvokeOutcome) : PiRestartState :=
  let s1 : PiRestartState :=
    { running := false, resetConnectionsCalled := s.resetConnectionsCalled
      statusPublished := true }
  match subprocess_run false o with
  | .ok _ => s1
  | .error _ => { s1 with running := true, resetConnectionsCalled := true }

/-! ### `connect_mqtt` (lines 87-110) and `run` (lines 511-527)

`connect_mqtt` retries `self.mqtt_client.connect(...)` up to 5 times; the
reachability of the broker on the i-th attempt is the environment function
`attempts`. `run` first calls `test_ihc_connection()` (only logging on
failure), then `connect_mqtt()`; if that returns `False` it logs
"Failed to connect to MQTT broker. Exiting." and returns without starting. -/

/-- The retry loop of `connect_mqtt`, with `remaining = max_retries - retry_count`
attempts left and `i` the index of the next attempt. -/
def connect_mqttAux (attempts : Nat → Bool) (i : Nat) : Nat → Bool
  | 0 => false
  | remaining + 1 => if attempts i then true else connect_mqttAux attempts (i + 1) remaining

/-- `connect_mqtt` (lines 87-110): up to `max_retries = 5` connection attempts. -/
def connect_mqtt (attempts : Nat → Bool) : Bool :=
  connect_mqttAux attempts 0 5

/-- Reachability of the two external endpoints during startup:
`ihcReachable` is the result of `test_ihc_connection()`, `mqttAttempts i`
whether the i-th `mqtt_client.connect` attempt succeeds. -/
structure StartupEnv where
  ihcReachable : Bool
  mqttAttempts : Nat → Bool

/-- Result of `run`'s startup sequence: `started` records that control
reached `loop_start` / `running = True` / the WebSocket thread start
(lines 527-535) instead of returning at line 525. -/
structure RunResult where
  started : Bool
  ihcWarned : Bool
deriving Repr, DecidableEq

/-- The startup sequence of `run` (lines 511-535). -/
def run (env : StartupEnv) : RunResult :=
  let ihcWarned := !env.ihcReachable
  if connect_mqtt env.mqttAttempts then
    { started := true, ihcWarned := ihcWarned }
  else
    { started := false, ihcWarned := ihcWarned }

/-! ### `reset_connections` (lines 433-454) and the read-loop race

`reset_connections` sets `ws_stop_event`, joins the old WebSocket thread
with `timeout=3` (a bounded wait that can return while the thread is still
alive), then clears `ws_stop_event` and starts a fresh thread. Whether the
old loop observed the stop event within the join window is a fact about
real-time scheduling, passed in as `oldStopsWithinJoin`; if it did not,
the old thread's next check of the (now cleared) event keeps it running. -/

/-- The supervisor state relevant to the rebuild: the shared stop event
and how many `websocket_worker` loops are currently alive. -/
structure SupervisorState where
  wsStopEvent : Bool
  activeLoops : Nat
deriving Repr, DecidableEq

/-- The loop guards of `websocket_worker` (lines 339 and 345): a worker
that reaches a check keeps running iff the stop event is not set. -/
def websocket_worker_continues (stopEvent : Bool) : Bool :=
  !stopEvent

/-- `reset_connections` (lines 433-454): set the stop event; join the old
thread with `timeout=3` (it exits only if it reached a stop-event check
within that bound, `oldStopsWithinJoin`); clear the stop event; start a
fresh `websocket_worker` thread. -/
def reset_connections (s : SupervisorState) (oldStopsWithinJoin : Bool) : SupervisorState :=
  let loopsAfterJoin := if oldStopsWithinJoin then s.activeLoops - 1 else s.activeLoops
  { wsStopEvent := false, activeLoops := loopsAfterJoin + 1 }

end IHCBridge

namespace IHCBridge

/-! ### Characterization of the sweep loop -/

theorem pruneFailures_append_now (now : Time) (fs : List Time) :
    pruneFailures now (fs ++ [now]) = pruneFailures now fs ++ [now] := by
  simp [pruneFailures, List.filter_append, failure_window]

theorem pruneFailures_idem (now : Time) (fs : List Time) :
    pruneFailures now (pruneFailures now fs) = pruneFailures now fs := by
  simp [pruneFailures, List.filter_filter]

/-- Unwinding the sweep loop: across the whole loop, `now` is appended once
per expired entry and survives every prune (its age is `0`), the pre-loop
failures are pruned once, the expired keys are collected in order, and the
restart flag ends up set iff some prefix of the appends pushed the pruned
window length to the threshold — which, the length being nondecreasing
along the loop, happens iff the final length reaches it. -/
theorem foldl_checkPendingStep (now : Time) (l : List (String × PendingInfo)) :
    ∀ (fs : List Time) (ks : List String) (b : Bool),
    l.foldl (checkPendingStep now) ⟨fs, ks, b⟩ =
      ⟨ if l.countP (isExpired now) = 0 then fs
          else pruneFailures now fs ++ List.replicate (l.countP (isExpired now)) now,
        ks ++ (l.filter (isExpired now)).map Prod.fst,
        b || (decide (1 ≤ l.countP (isExpired now)) &&
          decide (failure_threshold ≤ (pruneFailures now fs).length + l.countP (isExpired now))) ⟩ := by
  induction l with
  | nil => intro fs ks b; simp
  | cons kv l ih =>
    intro fs ks b
    by_cases h : isExpired now kv
    · rw [List.foldl_cons]
      rw [show checkPendingStep now ⟨fs, ks, b⟩ kv =
        ⟨pruneFailures now (fs ++ [now]), ks ++ [kv.1],
          b || decide (failure_threshold ≤ (pruneFailures now (fs ++ [now])).length)⟩ by
        simp [checkPendingStep, h]]
      rw [ih]
      have hm : (kv :: l).countP (isExpired now) = l.countP (isExpired now) + 1 := by
        simp [List.countP_cons, h]
      congr 1
      · rw [hm, pruneFailures_append_now, pruneFailures_append_now, pruneFailures_idem,
          if_neg (Nat.succ_ne_zero _)]
        rcases Nat.eq_zero_or_pos (l.countP (isExpired now)) with h0 | h0
        · simp [h0, List.replicate_succ]
        · rw [if_neg (by omega)]
          simp [List.replicate_succ, List.append_assoc]
      · simp [h, List.filter_cons, List.append_assoc]
      · rw [hm, pruneFailures_append_now, pruneFailures_append_now, pruneFailures_idem]
        simp only [List.length_append, List.length_cons, List.length_nil, Nat.zero_add]
        cases b
        · simp only [Bool.false_or]
          rw [Bool.eq_iff_iff]
          simp only [Bool.or_eq_true, Bool.and_eq_true, decide_eq_true_eq, failure_threshold]
          omega
        · simp
    · have hf : isExpired now kv = false := by simpa using h
      rw [List.foldl_cons]
      rw [show checkPendingStep now ⟨fs, ks, b⟩ kv = ⟨fs, ks, b⟩ by
        simp [checkPendingStep, hf]]
      rw [ih]
      have hc : (kv :: l).countP (isExpired now) = l.countP (isExpired now) := by
        simp [List.countP_cons, hf]
      congr 1
      · rw [hc]
      · simp [List.filter_cons, hf]
      · rw [hc]

end IHCBridge

namespace IHCBridge

theorem check_expiredKeys (p : Pending) (fs : List Time) (now : Time) :
    (check_pending_confirmations p fs now).expiredKeys
      = (p.filter (isExpired now)).map Prod.fst := by
  unfold check_pending_confirmations
  rw [foldl_checkPendingStep]
  simp

theorem check_restartTriggered (p : Pending) (fs : List Time) (now : Time) :
    (check_pending_confirmations p fs now).restartTriggered
      = (decide (1 ≤ p.countP (isExpired now)) &&
          decide (failure_threshold ≤ (pruneFailures now fs).length + p.countP (isExpired now))) := by
  unfold check_pending_confirmations
  rw [foldl_checkPendingStep]
  simp

theorem check_failures (p : Pending) (fs : List Time) (now : Time) :
    (check_pending_confirmations p fs now).failures
      = if (check_pending_confirmations p fs now).restartTriggered then []
        else if p.countP (isExpired now) = 0 then fs
          else pruneFailures now fs ++ List.replicate (p.countP (isExpired now)) now := by
  unfold check_pending_confirmations
  rw [foldl_checkPendingStep]

theorem check_pending_eq (p : Pending) (fs : List Time) (now : Time) :
    (check_pending_confirmations p fs now).pending
      = ((p.filter (isExpired now)).map Prod.fst).foldl delKey p := by
  unfold check_pending_confirmations
  rw [foldl_checkPendingStep]
  simp

/-- Deleting a list of keys one by one filters out every entry whose key
is among them. -/
theorem foldl_delKey (ks : List String) : ∀ (p : Pending),
    ks.foldl delKey p = p.filter (fun kv => !(ks.contains kv.1)) := by
  induction ks with
  | nil =>
    intro p
    simp
  | cons k ks ih =>
    intro p
    rw [List.foldl_cons, ih]
    show (p.filter (fun kv => kv.1 != k)).filter (fun kv => !(ks.contains kv.1)) = _
    rw [List.filter_filter]
    apply List.filter_congr
    intro kv _
    by_cases h1 : kv.1 = k <;> by_cases h2 : kv.1 ∈ ks <;>
      simp [List.contains_cons, Bool.not_or, bne, h1, h2]

end IHCBridge

namespace IHCBridge

/-! ### Association-list lemmas for the embedded dict -/

/-- Under the dict invariant (no duplicate keys), `d[key]` finds exactly
the entries of the dict. -/
theorem lookupPending_eq_some (k : String) (e : PendingInfo) :
    ∀ (p : Pending), (p.map Prod.fst).Nodup →
      (lookupPending p k = some e ↔ (k, e) ∈ p) := by
  intro p
  induction p with
  | nil => intro _; simp [lookupPending]
  | cons kv tl ih =>
    intro hnd
    rw [List.map_cons, List.nodup_cons] at hnd
    by_cases hk : kv.1 = k
    · rw [lookupPending,
        List.find?_cons_of_pos (p := fun kv => kv.1 == k) tl (by simp [hk])]
      simp only [Option.map_some', Option.some.injEq, List.mem_cons]
      constructor
      · intro he
        left
        rw [← hk, ← he]
      · rintro (he | he)
        · rw [← he]
        · exact absurd (List.mem_map.mpr ⟨(k, e), he, rfl⟩) (by rw [← hk]; exact hnd.1)
    · rw [lookupPending,
        List.find?_cons_of_neg (p := fun kv => kv.1 == k) tl (by simp [hk])]
      show lookupPending tl k = some e ↔ (k, e) ∈ kv :: tl
      rw [ih hnd.2]
      constructor
      · exact fun h => List.mem_cons_of_mem _ h
      · intro h
        rcases List.mem_cons.mp h with he | he
        · exact absurd (congrArg Prod.fst he).symm hk
        · exact he

/-- Under the dict invariant, a key determines its entry. -/
theorem pending_value_unique {p : Pending} {k : String} {a b : PendingInfo}
    (hnd : (p.map Prod.fst).Nodup) (h1 : (k, a) ∈ p) (h2 : (k, b) ∈ p) : a = b := by
  have ha := (lookupPending_eq_some k a p hnd).mpr h1
  have hb := (lookupPending_eq_some k b p hnd).mpr h2
  rw [ha] at hb
  exact (Option.some.injEq ..).mp hb

/-- No entry for `key` survives `del d[key]`. -/
theorem not_mem_delKey (p : Pending) (k : String) (e : PendingInfo) :
    (k, e) ∉ delKey p k := by
  intro h
  have := (List.mem_filter.mp h).2
  simp at this

/-- `del d[key]` keeps every entry with a different key. -/
theorem mem_delKey_of_ne (p : Pending) (k : String) (kv : String × PendingInfo)
    (h : kv ∈ p) (hne : kv.1 ≠ k) : kv ∈ delKey p k := by
  exact List.mem_filter.mpr ⟨h, by simp [hne]⟩

/-- A dict assignment makes the assigned entry the one found at its key. -/
theorem lookupPending_dictInsert (p : Pending) (k : String) (v : PendingInfo) :
    lookupPending (dictInsert p k v) k = some v := by
  unfold dictInsert
  by_cases h : p.any (fun kv => kv.1 == k)
  · rw [if_pos h]
    induction p with
    | nil => simp at h
    | cons kv tl ih =>
      by_cases hk : kv.1 = k
      · rw [List.map_cons, if_pos (by simp [hk])]
        rw [lookupPending, List.find?_cons_of_pos (p := fun kv : String × PendingInfo => kv.1 == k) _ (by simp)]
        rfl
      · rw [List.map_cons, if_neg (by simp [hk])]
        rw [lookupPending, List.find?_cons_of_neg (p := fun kv : String × PendingInfo => kv.1 == k) _ (by simp [hk])]
        exact ih (by simpa [hk] using h)
  · rw [if_neg h]
    induction p with
    | nil =>
      rw [List.nil_append, lookupPending,
        List.find?_cons_of_pos (p := fun kv : String × PendingInfo => kv.1 == k) _ (by simp)]
      rfl
    | cons kv tl ih =>
      simp only [List.any_cons, Bool.or_eq_true] at h
      push_neg at h
      rw [List.cons_append, lookupPending,
        List.find?_cons_of_neg (p := fun kv : String × PendingInfo => kv.1 == k) _ h.1]
      show lookupPending (tl ++ [(k, v)]) k = some v
      exact ih h.2

end IHCBridge

namespace IHCBridge

/-- Claim C5: on every sweep, `current_time` is appended to the failure
window once per expired entry and entries outside the 300s window are
pruned; `restart_ihc_server` is invoked at most once per sweep — exactly
once iff the pruned window's length reaches the threshold 3 — and the
window is cleared before the restart; three timeouts at t = 0, 50, 100
(each sweep finding one expired confirmation) trigger exactly once, at the
third sweep, with the window empty afterwards, while three timeouts at
t = 0, 400, 800 never trigger. -/
theorem C5_escalation_window (pending : Pending) (failures : List Time) (now : Time)
    (hlen : failures.length < failure_threshold) :
    ((check_pending_confirmations pending failures now).restartTriggered = true ↔
      failure_threshold ≤ (if pending.countP (isExpired now) = 0 then failures
        else pruneFailures now failures
          ++ List.replicate (pending.countP (isExpired now)) now).length)
    ∧ ((check_pending_confirmations pending failures now).restartTriggered = true →
        (check_pending_confirmations pending failures now).failures = [])
    ∧ ((check_pending_confirmations pending failures now).restartTriggered = false →
        (check_pending_confirmations pending failures now).failures
          = (if pending.countP (isExpired now) = 0 then failures
              else pruneFailures now failures
                ++ List.replicate (pending.countP (isExpired now)) now))
    ∧ ((check_pending_confirmations [("1_1", ⟨true, -11, 1, 1⟩)] [] 0).restartTriggered = false
      ∧ (check_pending_confirmations [("1_1", ⟨true, 39, 1, 1⟩)]
          (check_pending_confirmations [("1_1", ⟨true, -11, 1, 1⟩)] [] 0).failures
          50).restartTriggered = false
      ∧ (check_pending_confirmations [("1_1", ⟨true, 89, 1, 1⟩)]
          (check_pending_confirmations [("1_1", ⟨true, 39, 1, 1⟩)]
            (check_pending_confirmations [("1_1", ⟨true, -11, 1, 1⟩)] [] 0).failures
            50).failures
          100).restartTriggered = true
      ∧ (check_pending_confirmations [("1_1", ⟨true, 89, 1, 1⟩)]
          (check_pending_confirmations [("1_1", ⟨true, 39, 1, 1⟩)]
            (check_pending_confirmations [("1_1", ⟨true, -11, 1, 1⟩)] [] 0).failures
            50).failures
          100).failures = [])
    ∧ ((check_pending_confirmations [("1_1", ⟨true, -11, 1, 1⟩)] [] 0).restartTriggered = false
      ∧ (check_pending_confirmations [("1_1", ⟨true, 389, 1, 1⟩)]
          (check_pending_confirmations [("1_1", ⟨true, -11, 1, 1⟩)] [] 0).failures
          400).restartTriggered = false
      ∧ (check_pending_confirmations [("1_1", ⟨true, 789, 1, 1⟩)]
          (check_pending_confirmations [("1_1", ⟨true, 389, 1, 1⟩)]
            (check_pending_confirmations [("1_1", ⟨true, -11, 1, 1⟩)] [] 0).failures
            400).failures
          800).restartTriggered = false) := by
  refine ⟨?_, ?_, ?_, by decide, by decide⟩
  · rw [check_restartTriggered]
    rcases Nat.eq_zero_or_pos (pending.countP (isExpired now)) with h0 | h0
    · rw [if_pos h0, h0]
      simp only [failure_threshold] at hlen ⊢
      simp only [Bool.and_eq_true, decide_eq_true_eq]
      omega
    · rw [if_neg (by omega)]
      simp only [failure_threshold, Bool.and_eq_true, decide_eq_true_eq,
        List.length_append, List.length_replicate]
      omega
  · intro h
    rw [check_failures, h, if_pos rfl]
  · intro h
    rw [check_failures, h]
    simp

/-- Claim C6: the sweep reports a pending key iff its entry's age exceeds
the confirmation timeout (so never a fresh key, and always every aged
key), reports each such key exactly once, reports only keys that were
pending, and removes every reported key from the pending registry. -/
theorem C6_sweep_expired (p : Pending) (fs : List Time) (now : Time)
    (hnd : (p.map Prod.fst).Nodup) :
    (∀ k e, (k, e) ∈ p →
      (k ∈ (check_pending_confirmations p fs now).expiredKeys ↔
        confirmation_timeout < now - e.timestamp))
    ∧ (check_pending_confirmations p fs now).expiredKeys.Nodup
    ∧ (∀ k, k ∈ (check_pending_confirmations p fs now).expiredKeys →
        ∀ e, (k, e) ∉ (check_pending_confirmations p fs now).pending)
    ∧ (∀ k, k ∈ (check_pending_confirmations p fs now).expiredKeys →
        ∃ e, (k, e) ∈ p) := by
  rw [check_pending_eq, check_expiredKeys, foldl_delKey]
  refine ⟨?_, ?_, ?_, ?_⟩
  · intro k e hke
    constructor
    · intro hk
      rcases List.mem_map.mp hk with ⟨kv, hkv, hfst⟩
      rcases List.mem_filter.mp hkv with ⟨hmem, hexp⟩
      have hkv2 : (k, kv.2) ∈ p := by
        rw [← hfst]
        exact hmem
      have := pending_value_unique hnd hkv2 hke
      rw [← this]
      simpa [isExpired] using hexp
    · intro hage
      exact List.mem_map.mpr ⟨(k, e),
        List.mem_filter.mpr ⟨hke, by simpa [isExpired] using hage⟩, rfl⟩
  · exact ((List.filter_sublist p).map Prod.fst).nodup hnd
  · intro k hk e hmem
    have := (List.mem_filter.mp hmem).2
    rw [show ((k, e).1 : String) = k from rfl] at this
    simp only [Bool.not_eq_true'] at this
    exact absurd hk (by simpa using this)
  · intro k hk
    rcases List.mem_map.mp hk with ⟨kv, hkv, hfst⟩
    exact ⟨kv.2, by
      rw [← hfst]
      exact (List.mem_filter.mp hkv).1⟩

end IHCBridge

namespace IHCBridge

/-- Reduction of `process_ihc_event` on a fully-populated `outputState`
event: publish the state, then match-and-clear against the pending dict. -/
theorem process_outputState (p : Pending) (m io : Int) (st : Bool) :
    process_ihc_event p ⟨some "outputState", some m, some io, some st⟩ =
      (match lookupPending p (mkKey m io) with
      | some info =>
        if info.state = st then
          ⟨delKey p (mkKey m io),
            [⟨"ihc/" ++ "outputState" ++ "/" ++ toString m ++ "/" ++ toString io
              ++ "/state", if st then "ON" else "OFF", true⟩], true⟩
        else
          ⟨p, [⟨"ihc/" ++ "outputState" ++ "/" ++ toString m ++ "/" ++ toString io
            ++ "/state", if st then "ON" else "OFF", true⟩], false⟩
      | none =>
        ⟨p, [⟨"ihc/" ++ "outputState" ++ "/" ++ toString m ++ "/" ++ toString io
          ++ "/state", if st then "ON" else "OFF", true⟩], false⟩) := by
  rfl

/-- Claim C7: the match-and-clear step of the Event Relay succeeds iff an
entry is pending for the event's device key with the expected state equal
to the observed state, in which case exactly that entry is removed; in
every other case it reports no confirmation and leaves the registry
unchanged. -/
theorem C7_try_confirm (p : Pending) (m io : Int) (st : Bool)
    (hnd : (p.map Prod.fst).Nodup) :
    ((process_ihc_event p ⟨some "outputState", some m, some io, some st⟩).confirmed = true
      ↔ ∃ e, (mkKey m io, e) ∈ p ∧ e.state = st)
    ∧ ((process_ihc_event p ⟨some "outputState", some m, some io, some st⟩).confirmed = true →
        (∀ e, (mkKey m io, e)
            ∉ (process_ihc_event p ⟨some "outputState", some m, some io, some st⟩).pending)
        ∧ (∀ kv, kv ∈ p → kv.1 ≠ mkKey m io →
            kv ∈ (process_ihc_event p ⟨some "outputState", some m, some io, some st⟩).pending))
    ∧ ((process_ihc_event p ⟨some "outputState", some m, some io, some st⟩).confirmed = false →
        (process_ihc_event p ⟨some "outputState", some m, some io, some st⟩).pending = p) := by
  rw [process_outputState]
  split
  · rename_i info hl
    split
    · rename_i hs
      refine ⟨?_, ?_, ?_⟩
      · simp only [true_iff]
        exact ⟨info, (lookupPending_eq_some _ _ p hnd).mp hl, hs⟩
      · intro _
        exact ⟨fun e => not_mem_delKey p (mkKey m io) e,
          fun kv hkv hne => mem_delKey_of_ne p (mkKey m io) kv hkv hne⟩
      · intro h
        exact absurd h (by simp)
    · rename_i hs
      refine ⟨?_, ?_, ?_⟩
      · simp only [Bool.false_eq_true, false_iff]
        rintro ⟨e, he, hst⟩
        rw [(lookupPending_eq_some _ _ p hnd).mpr he] at hl
        exact hs (by rw [← (Option.some.injEq ..).mp hl]; exact hst)
      · intro h
        exact absurd h (by simp)
      · intro _
        rfl
  · rename_i hl
    refine ⟨?_, ?_, ?_⟩
    · simp only [Bool.false_eq_true, false_iff]
      rintro ⟨e, he, hst⟩
      rw [(lookupPending_eq_some _ _ p hnd).mpr he] at hl
      exact Option.noConfusion hl
    · intro h
      exact absurd h (by simp)
    · intro _
      rfl

end IHCBridge

namespace IHCBridge

/-- Reduction of `process_ihc_event` on a fully-populated event whose type
is neither the keepalive nor `outputState`: publish only. -/
theorem process_nonping (p : Pending) (et : String) (m io : Int) (st : Bool)
    (het : et ≠ "ping") (hno : et ≠ "outputState") :
    process_ihc_event p ⟨some et, some m, some io, some st⟩
      = ⟨p, [⟨"ihc/" ++ et ++ "/" ++ toString m ++ "/" ++ toString io ++ "/state",
          if st then "ON" else "OFF", true⟩], false⟩ := by
  simp only [process_ihc_event]
  rw [if_neg het, if_neg hno]

/-- Claim C10: an event carrying the present boolean value `false` in its
`state` field is not rejected by the required-fields check (`None in ...`
distinguishes an absent field from `False`): it is published as `"OFF"`
retained, and for an `outputState` event it clears a matching pending
confirmation whose expected state is `false`. -/
theorem C10_false_state_processed (p : Pending) (et : String) (m io : Int)
    (hnd : (p.map Prod.fst).Nodup) (het : et ≠ "ping") :
    (process_ihc_event p ⟨some et, some m, some io, some false⟩).published
      = [⟨"ihc/" ++ et ++ "/" ++ toString m ++ "/" ++ toString io ++ "/state",
          "OFF", true⟩]
    ∧ (et = "outputState" → ∀ e, (mkKey m io, e) ∈ p → e.state = false →
        (process_ihc_event p ⟨some et, some m, some io, some false⟩).confirmed = true
        ∧ (∀ e', (mkKey m io, e')
            ∉ (process_ihc_event p ⟨some et, some m, some io, some false⟩).pending)) := by
  by_cases he : et = "outputState"
  · subst he
    rw [process_outputState]
    split
    · rename_i info hl
      split
      · rename_i hs
        exact ⟨rfl, fun _ e _ _ => ⟨rfl, fun e' => not_mem_delKey p (mkKey m io) e'⟩⟩
      · rename_i hs
        refine ⟨rfl, fun _ e he hst => absurd ?_ hs⟩
        rw [(Option.some.injEq ..).mp
          ((lookupPending_eq_some _ _ p hnd).mpr he ▸ hl : some e = some info).symm]
        exact hst
    · rename_i hl
      refine ⟨rfl, fun _ e he hst => ?_⟩
      rw [(lookupPending_eq_some _ _ p hnd).mpr he] at hl
      exact Option.noConfusion hl
  · rw [process_nonping p et m io false het he]
    exact ⟨rfl, fun h => absurd h he⟩

/-- Claim C1 is a code bug: for the event
`{type: "outputState", moduleNumber: 4, ioNumber: 2, state: true}` the
Event Relay publishes the retained `"ON"` to `ihc/outputState/4/2/state`
(the raw event type is interpolated into the topic), while the optimistic
echo of `set_ihc_output` for the same device publishes to
`ihc/output/4/2/state` — a different topic, so the relay publish does not
overwrite the echo. The confirmation-clearing half of the claim does hold:
the matching pending entry for `(4, 2)` is removed. -/
theorem C1_relay_topic_code_bug :
    ((process_ihc_event [("4_2", ⟨true, 0, 4, 2⟩)]
        ⟨some "outputState", some 4, some 2, some true⟩).published
      = [⟨"ihc/outputState/4/2/state", "ON", true⟩])
    ∧ ((set_ihc_output [] 4 2 true 0 (some 200)).published
      = [⟨"ihc/output/4/2/state", "ON", true⟩])
    ∧ ("ihc/outputState/4/2/state" : String) ≠ "ihc/output/4/2/state"
    ∧ (process_ihc_event [("4_2", ⟨true, 0, 4, 2⟩)]
        ⟨some "outputState", some 4, some 2, some true⟩).confirmed = true
    ∧ (process_ihc_event [("4_2", ⟨true, 0, 4, 2⟩)]
        ⟨some "outputState", some 4, some 2, some true⟩).pending = [] := by
  refine ⟨by decide, by decide, by decide, by decide, by decide⟩

end IHCBridge

namespace IHCBridge

/-- Reduction of `on_message` on the concrete device-set topic
`ihc/output/4/2/set` with a payload whose uppercasing is `"ON"`: the
message is routed to `set_ihc_output(4, 2, True)`. -/
theorem on_message_set_topic (p : Pending) (payload : String) (now : Time)
    (outcome : Option Nat) (hp : pyUpper payload = "ON") :
    on_message p "ihc/output/4/2/set" payload now outcome =
      { pending := (set_ihc_output p 4 2 true now outcome).pending
        published := (set_ihc_output p 4 2 true now outcome).published
        submitted := (set_ihc_output p 4 2 true now outcome).submitted
        sysAction := none
        warnLogged := (set_ihc_output p 4 2 true now outcome).warnLogged
        errorLogged := (set_ihc_output p 4 2 true now outcome).errorLogged } := by
  unfold on_message
  rw [hp]
  rfl

/-- Claim C8: a bus command on the device-set topic for module 4, output 2
whose payload case-insensitively equals `"ON"` submits the device write
`{moduleNumber: 4, ioNumber: 2, state: true}`; exactly when the submission
reports status 200 it registers the pending confirmation for key `(4, 2)`
expecting `true` and publishes the retained optimistic echo
`ihc/output/4/2/state = "ON"`; on a submission failure it only logs,
registering nothing and publishing nothing. -/
theorem C8_command_ingress (p : Pending) (payload : String) (now : Time)
    (outcome : Option Nat) (hp : pyUpper payload = "ON") :
    (on_message p "ihc/output/4/2/set" payload now outcome).submitted
      = [⟨4, 2, true⟩]
    ∧ (outcome ≠ some 200 →
        (on_message p "ihc/output/4/2/set" payload now outcome).pending = p
        ∧ (on_message p "ihc/output/4/2/set" payload now outcome).published = []
        ∧ ((on_message p "ihc/output/4/2/set" payload now outcome).warnLogged = true
          ∨ (on_message p "ihc/output/4/2/set" payload now outcome).errorLogged = true))
    ∧ ((lookupPending (on_message p "ihc/output/4/2/set" payload now outcome).pending
          (mkKey 4 2) = some ⟨true, now, 4, 2⟩
        ∧ (on_message p "ihc/output/4/2/set" payload now outcome).published
          = [⟨"ihc/output/4/2/state", "ON", true⟩])
      ↔ outcome = some 200) := by
  rw [on_message_set_topic p payload now outcome hp]
  cases outcome with
  | none => simp [set_ihc_output]
  | some c =>
    by_cases hc : c = 200
    · subst hc
      refine ⟨rfl, fun h => absurd rfl h, ?_⟩
      refine iff_of_true ⟨?_, ?_⟩ rfl
      · show lookupPending (dictInsert p (mkKey 4 2) ⟨true, now, 4, 2⟩) (mkKey 4 2)
          = some ⟨true, now, 4, 2⟩
        exact lookupPending_dictInsert p (mkKey 4 2) ⟨true, now, 4, 2⟩
      · rfl
    · simp [set_ihc_output, hc]

/-- Claim C9: a bus message whose topic is neither a reserved system topic
nor a well-formed five-segment device-set topic is logged and discarded —
no exception escapes (the embedding is a total function whose `except`
branch is the `errorLogged` flag), nothing is submitted, no system action
runs, and the pending registry is untouched; likewise a device-set topic
with a non-integer module id (`ihc/output/abc/2/set`) is discarded with
only an error log. -/
theorem C9_malformed_discard (p : Pending) (topic payload : String) (now : Time)
    (outcome : Option Nat)
    (h1 : topic ≠ "ihc/system/restart") (h2 : topic ≠ "ihc/system/pi_restart")
    (h3 : valid_set_topic (pySplit topic) = false) :
    ((on_message p topic payload now outcome).pending = p
      ∧ (on_message p topic payload now outcome).submitted = []
      ∧ (on_message p topic payload now outcome).sysAction = none
      ∧ (on_message p topic payload now outcome).published = []
      ∧ (on_message p topic payload now outcome).warnLogged = true)
    ∧ ((on_message p "ihc/output/abc/2/set" payload now outcome).pending = p
      ∧ (on_message p "ihc/output/abc/2/set" payload now outcome).submitted = []
      ∧ (on_message p "ihc/output/abc/2/set" payload now outcome).errorLogged = true) := by
  constructor
  · have hr : on_message p topic payload now outcome =
        { pending := p, published := [], submitted := [], sysAction := none
          warnLogged := true, errorLogged := false } := by
      unfold on_message
      rw [if_neg (fun hh => h1 hh.1), if_neg (fun hh => h2 hh.1)]
      simp [h3]
    rw [hr]
    exact ⟨rfl, rfl, rfl, rfl, rfl⟩
  · have hr2 : on_message p "ihc/output/abc/2/set" payload now outcome =
        { pending := p, published := [], submitted := [], sysAction := none
          warnLogged := false, errorLogged := true } := rfl
    rw [hr2]
    exact ⟨rfl, rfl, rfl⟩

end IHCBridge

namespace IHCBridge

/-- Claim C2 fails on the code: when `sudo reboot` runs but exits with a
nonzero status (a failed reboot invocation), `subprocess.run` was called
with `check=False`, so nothing is raised, the `except` branch never runs,
and the bridge is left with `running = False` and no rebuilt connections —
it does not resume normal operation. -/
theorem C2_reboot_nonzero_exit_counterexample :
    (restart_raspberry_pi ⟨true, false, false⟩ (.exitCode 1)).running = false
    ∧ (restart_raspberry_pi ⟨true, false, false⟩ (.exitCode 1)).resetConnectionsCalled
      = false := by
  exact ⟨rfl, rfl⟩

/-- Claim C2, amended: the host-restart action resumes normal operation
(re-enables `running` and rebuilds connections) exactly when the reboot
invocation raises an exception; a reboot command that runs and exits with
a nonzero status is invoked with `check=False`, raises nothing, and the
component does not resume. -/
theorem C2_reboot_resume_amended (s : PiRestartState) (o : InvokeOutcome) :
    ((restart_raspberry_pi s o).running = true
      ∧ (restart_raspberry_pi s o).resetConnectionsCalled = true)
    ↔ o = InvokeOutcome.raisesOSError := by
  cases o with
  | raisesOSError => simp [restart_raspberry_pi, subprocess_run]
  | exitCode c => simp [restart_raspberry_pi, subprocess_run]

/-- Claim C3 fails on the code: with the IHC controller reachable but the
MQTT broker unreachable on all five connection attempts, `run` logs
"Failed to connect to MQTT broker. Exiting." and returns without starting
the bridge. -/
theorem C3_broker_unreachable_counterexample :
    (run ⟨true, fun _ => false⟩).started = false := by
  rfl

/-- Claim C3, amended: whether `run` starts the bridge is decided solely by
`connect_mqtt` — an unreachable controller is only logged and the bridge
still starts (it starts whenever some of the five broker connection
attempts succeeds, even with the controller down), but an unreachable
broker after all five attempts makes `run` return without starting. -/
theorem C3_startup_amended (ihc : Bool) (attempts : Nat → Bool) :
    ((run ⟨ihc, attempts⟩).started = connect_mqtt attempts)
    ∧ (run ⟨false, fun _ => true⟩).started = true
    ∧ connect_mqtt (fun _ => false) = false := by
  refine ⟨?_, rfl, rfl⟩
  unfold run
  by_cases h : connect_mqtt attempts
  · rw [if_pos h, h]
  · rw [if_neg h]
    simp only [Bool.not_eq_true] at h
    rw [h]

/-- Claim C4 fails on the code: `reset_connections` joins the old read
loop with `timeout=3` and then unconditionally clears the stop event and
starts a new loop; if the old loop did not reach a stop-event check within
the join window (e.g. it was sleeping in its 10-second reconnect delay),
two read loops are active afterwards, and the cleared stop event lets the
old one keep running. -/
theorem C4_two_loops_counterexample :
    (reset_connections ⟨false, 1⟩ false).activeLoops = 2
    ∧ websocket_worker_continues (reset_connections ⟨false, 1⟩ false).wsStopEvent
      = true := by
  exact ⟨rfl, rfl⟩

/-- Claim C4, amended: after `reset_connections`, exactly one read loop is
active if the prior loop observed the stop event within the 3-second
bounded join — but when the join times out, the old loop survives next to
the new one (two active loops), and since the stop event is cleared before
an unterminated old loop reaches its next check, that old loop continues
instead of exiting. -/
theorem C4_single_loop_amended (e : Bool) (s : SupervisorState) (b : Bool) :
    (reset_connections ⟨e, 1⟩ true).activeLoops = 1
    ∧ (reset_connections ⟨e, 1⟩ false).activeLoops = 2
    ∧ (reset_connections s b).wsStopEvent = false
    ∧ websocket_worker_continues (reset_connections s b).wsStopEvent = true := by
  exact ⟨rfl, rfl, rfl, rfl⟩

end IHCBridge

namespace IHCBridge

/-- Concrete instantiation of `C5_escalation_window`. -/
theorem C5_escalation_window_witness :
    ([] : List Time).length < failure_threshold
    ∧ ((check_pending_confirmations [("1_1", (⟨true, -11, 1, 1⟩ : PendingInfo))] [] 0).restartTriggered = true →
        (check_pending_confirmations [("1_1", (⟨true, -11, 1, 1⟩ : PendingInfo))] [] 0).failures = []) :=
  ⟨by decide, (C5_escalation_window [("1_1", ⟨true, -11, 1, 1⟩)] [] 0 (by decide)).2.1⟩

/-- Concrete instantiation of `C6_sweep_expired`. -/
theorem C6_sweep_expired_witness :
    (([("4_2", (⟨true, -11, 4, 2⟩ : PendingInfo))] : Pending).map Prod.fst).Nodup
    ∧ (check_pending_confirmations [("4_2", (⟨true, -11, 4, 2⟩ : PendingInfo))] [] 0).expiredKeys.Nodup :=
  ⟨by decide, (C6_sweep_expired [("4_2", ⟨true, -11, 4, 2⟩)] [] 0 (by decide)).2.1⟩

/-- Concrete instantiation of `C7_try_confirm`. -/
theorem C7_try_confirm_witness :
    (([("4_2", (⟨true, 0, 4, 2⟩ : PendingInfo))] : Pending).map Prod.fst).Nodup
    ∧ ((process_ihc_event [("4_2", (⟨true, 0, 4, 2⟩ : PendingInfo))]
          ⟨some "outputState", some 4, some 2, some true⟩).confirmed = true
        ↔ ∃ e, (mkKey 4 2, e) ∈ ([("4_2", (⟨true, 0, 4, 2⟩ : PendingInfo))] : Pending)
            ∧ e.state = true) :=
  ⟨by decide, (C7_try_confirm [("4_2", ⟨true, 0, 4, 2⟩)] 4 2 true (by decide)).1⟩

/-- Concrete instantiation of `C8_command_ingress`. -/
theorem C8_command_ingress_witness :
    pyUpper "on" = "ON"
    ∧ (on_message [] "ihc/output/4/2/set" "on" 0 (some 200)).submitted
      = [⟨4, 2, true⟩] :=
  ⟨by decide, (C8_command_ingress [] "on" 0 (some 200) (by decide)).1⟩

/-- Concrete instantiation of `C9_malformed_discard`. -/
theorem C9_malformed_discard_witness :
    ("foo/bar" : String) ≠ "ihc/system/restart"
    ∧ ("foo/bar" : String) ≠ "ihc/system/pi_restart"
    ∧ valid_set_topic (pySplit "foo/bar") = false
    ∧ (on_message [] "foo/bar" "x" 0 none).submitted = [] :=
  ⟨by decide, by decide, by decide,
    (C9_malformed_discard [] "foo/bar" "x" 0 none (by decide) (by decide) (by decide)).1.2.1⟩

/-- Concrete instantiation of `C10_false_state_processed`. -/
theorem C10_false_state_processed_witness :
    (([("4_2", (⟨false, 0, 4, 2⟩ : PendingInfo))] : Pending).map Prod.fst).Nodup
    ∧ ("outputState" : String) ≠ "ping"
    ∧ (process_ihc_event [("4_2", (⟨false, 0, 4, 2⟩ : PendingInfo))]
        ⟨some "outputState", some 4, some 2, some false⟩).published
      = [⟨"ihc/outputState/4/2/state", "OFF", true⟩] :=
  ⟨by decide, by decide,
    (C10_false_state_processed [("4_2", ⟨false, 0, 4, 2⟩)] "outputState" 4 2
      (by decide) (by decide)).1⟩

end IHCBridge
